import Mathlib

/-!
Verification of the Excel-to-MySQL migration script (`excel_to_mysql_migration.py`).

Shallow embedding conventions:
* Python strings are modelled as lists of Unicode codepoints (`PyStr := List Nat`).
  Python's string predicates are Unicode-aware; `pyIsSpace` reproduces the
  complete (finite) whitespace table that `str.strip` removes, while
  `pyIsAlnum`, `pyIsDigit` and `pyLowerChar` reproduce the full ASCII
  behaviour plus a documented finite fragment of the Unicode tables
  (capital and small e with acute, capital I with dot above, the combining
  dot above, the Arabic-Indic digit three) - the complete Unicode category
  and case-mapping tables are not representable here, and the fragment
  suffices to exhibit every divergence these claims turn on.  `str.lower`
  can map one codepoint to several (capital I with dot above lowers to i
  followed by a combining dot), so per-character lowering is list-valued
  and string lowering is its `flatMap`.
* SQLAlchemy type objects (`types.SMALLINT`, `types.String(n)`, ...) become the
  inductive `SqlType`.
* A pandas `Series` is modelled by its dtype class together with the data the
  inference code actually reads: the integer values for an integer-dtype
  column, and the per-cell string renderings for an object-dtype column
  (`series.astype(str)` renders a missing value `np.nan` as the 3-character
  string nan, which is why a missing text cell is rendered explicitly).
  Float / bool / datetime dtypes carry no data because `infer_mysql_type`
  never reads their values.
* `df.to_sql` and the MySQL connection are external collaborators; a load
  failure (any exception raised during dtype creation or the write) is
  modelled by the `load_fails` flag of a `Sheet`.  Wall-clock timestamps in
  the stats dictionary are not modelled.
-/

/-- A Python string, as a list of Unicode codepoints. -/
abbrev PyStr := List Nat

/-- Python `str.isspace`, the exact set of characters `str.strip` removes:
tab through carriage return (9-13), the C1 separators 28-31, space, next
line (133), no-break space (160), ogham space mark (5760), the en-quad
through hair-space block (8192-8202), line and paragraph separator (8232,
8233), narrow no-break space (8239), medium mathematical space (8287) and
ideographic space (12288).  This is CPython's complete whitespace table. -/
def pyIsSpace (c : Nat) : Bool :=
  decide ((9 ≤ c ∧ c ≤ 13) ∨ (28 ≤ c ∧ c ≤ 32) ∨ c = 133 ∨ c = 160 ∨
    c = 5760 ∨ (8192 ≤ c ∧ c ≤ 8202) ∨ c = 8232 ∨ c = 8233 ∨ c = 8239 ∨
    c = 8287 ∨ c = 12288)

/-- Python `str.isalnum` on one character: the full ASCII behaviour
(letters and decimal digits) plus the modelled Unicode fragment, for which
Python also returns True: capital E with acute (201), small e with acute
(233), capital I with dot above (304) and the Arabic-Indic digit three
(1635).  Remaining non-ASCII codepoints are left outside the model. -/
def pyIsAlnum (c : Nat) : Bool :=
  decide ((65 ≤ c ∧ c ≤ 90) ∨ (97 ≤ c ∧ c ≤ 122) ∨ (48 ≤ c ∧ c ≤ 57) ∨
    c = 201 ∨ c = 233 ∨ c = 304 ∨ c = 1635)

/-- Python `str.isdigit` on one character: the ASCII digits plus the
modelled Unicode fragment (the Arabic-Indic digit three, 1635). -/
def pyIsDigit (c : Nat) : Bool :=
  decide ((48 ≤ c ∧ c ≤ 57) ∨ c = 1635)

/-- Python `str.lower` on one character, list-valued because one codepoint
may lower to several: ASCII uppercase maps into a-z, capital E with acute
(201) lowers to small e with acute (233), and capital I with dot above
(304) lowers to i followed by the combining dot above (105, 775); every
other modelled codepoint is fixed.  String lowering is the `flatMap` of
this map. -/
def pyLowerChar (c : Nat) : List Nat :=
  if 65 ≤ c ∧ c ≤ 90 then [c + 32]
  else if c = 201 then [233]
  else if c = 304 then [105, 775]
  else [c]

/-- Python `str.strip`: drop leading and trailing whitespace. -/
def pyStrip (s : PyStr) : PyStr :=
  (((s.dropWhile pyIsSpace).reverse.dropWhile pyIsSpace)).reverse

/-- The SQLAlchemy type objects the script produces (`sqlalchemy.types`).
`varchar n` stands for `types.String(n)`. -/
inductive SqlType where
  | smallint
  | integer
  | bigint
  | decimal (precision : Nat) (scale : Nat)
  | boolean
  | datetime
  | varchar (length : Nat)
  | text
deriving DecidableEq, Repr

/-- A pandas Series as seen by `infer_mysql_type`: the dtype class plus the
data that branch of the code reads.  `ints` holds the column values (an
integer dtype cannot hold missing values).  `strs` holds, per cell, the
string content of a present value, or `none` for a missing cell; the
rendering applied by `series.astype(str)` is `renderCell`. -/
inductive Series where
  | ints (vals : List Int)
  | floats
  | bools
  | datetimes
  | strs (vals : List (Option PyStr))
deriving DecidableEq, Repr

/-- The caller-supplied `column_types_mapping` dictionary. -/
abbrev TypeMapping := List (PyStr × SqlType)

/-- Python `column_name in mapping` followed by `mapping[column_name]`,
as first-match association-list lookup. -/
def lookupType : TypeMapping → PyStr → Option SqlType
  | [], _ => none
  | (k, t) :: rest, name => if k = name then some t else lookupType rest name

/-- `series.max() if len(series) > 0 else 0` for an integer-dtype series. -/
def seriesMax : List Int → Int
  | [] => 0
  | v :: vs => vs.foldl max v

/-- `series.astype(str)` on one cell of an object-dtype series: a present
value keeps its string content, a missing value (`np.nan`) renders as the
3-character string nan (codepoints 110, 97, 110). -/
def renderCell : Option PyStr → PyStr
  | some s => s
  | none => [110, 97, 110]

/-- `series.astype(str).str.len().max()`: pandas returns NaN for an empty
series, and the script's `pd.isna(max_length)` check then routes it exactly
like 0, so the model returns 0 on the empty list. -/
def maxOrZero : List Nat → Nat
  | [] => 0
  | x :: xs => xs.foldl max x

/-- `ExcelToMySQLMigrator.infer_mysql_type` (lines 83-137).  Decision order:
explicit mapping entry, integer dtype with the 127 / 32767 thresholds,
float dtype to DECIMAL(15, 4), bool, datetime, and otherwise the VARCHAR
sizing from the maximum rendered string length.  `int(max_length * 1.5)` is
exact truncation of `3 * max_length / 2` (the product is an exact binary
float for any realistic length). -/
def infer_mysql_type (column_types_mapping : TypeMapping)
    (series : Series) (column_name : PyStr) : SqlType :=
  match lookupType column_types_mapping column_name with
  | some t => t
  | none =>
    match series with
    | .ints vals =>
      let max_val := seriesMax vals
      if max_val < 127 then .smallint
      else if max_val < 32767 then .integer
      else .bigint
    | .floats => .decimal 15 4
    | .bools => .boolean
    | .datetimes => .datetime
    | .strs vals =>
      let max_length := maxOrZero ((vals.map renderCell).map List.length)
      let max_length := if max_length = 0 then 255 else max_length
      if max_length > 5000 then .text
      else if max_length > 1000 then .varchar 5000
      else .varchar (min (3 * max_length / 2) 1000)

/-- `ExcelToMySQLMigrator.create_dtype_dict` (lines 139-153). -/
def create_dtype_dict (column_types_mapping : TypeMapping)
    (columns : List (PyStr × Series)) : List (PyStr × SqlType) :=
  columns.map fun col => (col.1, infer_mysql_type column_types_mapping col.2 col.1)

/-- `table_name.replace(' ', '_')` on one character. -/
def subSpace (c : Nat) : Nat := if c = 32 then 95 else c

/-- `table_name.replace('-', '_')` on one character. -/
def subHyphen (c : Nat) : Nat := if c = 45 then 95 else c

/-- `c if c.isalnum() or c == '_' else '_'` on one character. -/
def subNonAlnum (c : Nat) : Nat := if pyIsAlnum c || c = 95 then c else 95

/-- Lines 166-169 of `clean_table_name`: strip, replace spaces and hyphens
with underscore, replace every remaining non-alphanumeric character with
underscore. -/
def sanitizeCore (s : PyStr) : PyStr :=
  (((pyStrip s).map subSpace).map subHyphen).map subNonAlnum

/-- The literal table_ prepended to digit-leading names
(codepoints of t, a, b, l, e, underscore). -/
def tableLit : PyStr := [116, 97, 98, 108, 101, 95]

/-- `ExcelToMySQLMigrator.clean_table_name` (lines 155-179).  On an input
that strips to the empty string the source raises `IndexError` at
`table_name[0]`; the model returns `none` for that case. -/
def clean_table_name (sheet_name : PyStr) : Option PyStr :=
  match sanitizeCore sheet_name with
  | [] => none
  | c :: rest =>
    let t := if pyIsDigit c then tableLit ++ (c :: rest) else c :: rest
    some ((t.flatMap pyLowerChar).take 64)

/-- One sheet as `migrate_sheet_to_table` sees it: its name, its row count
(`df.shape[0]`), and whether the external write step (dtype creation plus
`df.to_sql`) raises an exception. -/
structure Sheet where
  sheet_name : PyStr
  rows : Nat
  load_fails : Bool
deriving DecidableEq, Repr

/-- The observable outcome of `migrate_sheet_to_table`: the three return
sites of the source.  `skippedEmpty` is the `rows == 0` early return (with
its skip message), `failed` is the `except` handler, `loaded` is the
successful write of the named table. -/
inductive SheetResult where
  | skippedEmpty
  | failed
  | loaded (table_name : PyStr)
deriving DecidableEq, Repr

/-- The boolean the source returns: `True` only after a completed write. -/
def SheetResult.success : SheetResult → Bool
  | .loaded _ => true
  | _ => false

/-- The destination table written by the sheet, if the write completed. -/
def SheetResult.written : SheetResult → Option PyStr
  | .loaded t => some t
  | _ => none

/-- `ExcelToMySQLMigrator.migrate_sheet_to_table` (lines 181-238).  The
whole body runs inside `try/except`: a name that raises in
`clean_table_name` is caught and becomes a `False` return; an empty sheet
returns `False` before the write; an exception during dtype creation or
`df.to_sql` (modelled by `load_fails`) is caught and returns `False`;
otherwise the table is written and `True` is returned. -/
def migrate_sheet_to_table (column_types_mapping : TypeMapping)
    (s : Sheet) : SheetResult :=
  match clean_table_name s.sheet_name with
  | none => .failed
  | some table_name =>
    if s.rows = 0 then .skippedEmpty
    else if s.load_fails then .failed
    else .loaded table_name

/-- The `stats` dictionary of `migrate_all` (timestamps omitted). -/
structure MigrationStats where
  total_sheets : Nat
  successful : Nat
  failed : Nat
  total_rows : Nat
deriving DecidableEq, Repr

/-- The body of the per-sheet loop in `migrate_all` (lines 275-280). -/
def migrate_step (column_types_mapping : TypeMapping)
    (stats : MigrationStats) (s : Sheet) : MigrationStats :=
  if (migrate_sheet_to_table column_types_mapping s).success then
    { stats with successful := stats.successful + 1 }
  else
    { stats with failed := stats.failed + 1 }

/-- `ExcelToMySQLMigrator.migrate_all` (lines 240-293), from the point where
the sheet list is known: `total_sheets` is set to the number of sheets,
then each sheet is migrated in order and exactly one of `successful` /
`failed` is incremented.  `total_rows` is initialised to 0 and is never
assigned anywhere else in the source. -/
def migrate_all (column_types_mapping : TypeMapping)
    (sheets : List Sheet) : MigrationStats :=
  sheets.foldl (migrate_step column_types_mapping)
    { total_sheets := sheets.length, successful := 0, failed := 0, total_rows := 0 }

/-- Characters allowed in a sanitized table name: lowercase ASCII letters,
decimal digits, underscore. -/
def goodChar (c : Nat) : Bool :=
  decide ((97 ≤ c ∧ c ≤ 122) ∨ (48 ≤ c ∧ c ≤ 57) ∨ c = 95)

/-- True when the name does not begin with a decimal digit. -/
def headNotDigit : PyStr → Bool
  | [] => true
  | c :: _ => !pyIsDigit c

/-! ### Helper lemmas about folded maxima -/

theorem foldl_max_eq_of_mem_ub {α : Type} [LinearOrder α] (M : α) :
    ∀ (l : List α) (a : α), (M = a ∨ M ∈ l) → a ≤ M → (∀ x ∈ l, x ≤ M) →
      l.foldl max a = M := by
  intro l
  induction l with
  | nil =>
    intro a h1 h2 _
    rcases h1 with h1 | h1
    · exact le_antisymm h2 (le_of_eq h1)
    · simp at h1
  | cons x xs ih =>
    intro a h1 h2 h3
    have hx : x ≤ M := h3 x (by simp)
    have hmax : max a x ≤ M := max_le h2 hx
    have hmem : M = max a x ∨ M ∈ xs := by
      rcases h1 with h1 | h1
      · left
        exact le_antisymm (h1 ▸ le_max_left a x) hmax
      · rcases List.mem_cons.mp h1 with h1 | h1
        · left
          exact le_antisymm (h1 ▸ le_max_right a x) hmax
        · right
          exact h1
    simpa using ih (max a x) hmem hmax (fun y hy => h3 y (by simp [hy]))

theorem seriesMax_eq (vals : List Int) (M : Int)
    (h : (vals = [] ∧ M = 0) ∨ (M ∈ vals ∧ ∀ x ∈ vals, x ≤ M)) :
    seriesMax vals = M := by
  rcases h with ⟨h1, h2⟩ | ⟨h1, h2⟩
  · simp [h1, seriesMax, h2]
  · cases vals with
    | nil => simp at h1
    | cons v vs =>
      show vs.foldl max v = M
      refine foldl_max_eq_of_mem_ub M vs v ?_ (h2 v (by simp)) ?_
      · rcases List.mem_cons.mp h1 with h | h
        · exact Or.inl h
        · exact Or.inr h
      · exact fun x hx => h2 x (by simp [hx])

theorem maxOrZero_eq (l : List Nat) (M : Nat)
    (h : (l = [] ∧ M = 0) ∨ (M ∈ l ∧ ∀ x ∈ l, x ≤ M)) :
    maxOrZero l = M := by
  rcases h with ⟨h1, h2⟩ | ⟨h1, h2⟩
  · simp [h1, maxOrZero, h2]
  · cases l with
    | nil => simp at h1
    | cons v vs =>
      show vs.foldl max v = M
      refine foldl_max_eq_of_mem_ub M vs v ?_ (h2 v (by simp)) ?_
      · rcases List.mem_cons.mp h1 with h | h
        · exact Or.inl h
        · exact Or.inr h
      · exact fun x hx => h2 x (by simp [hx])

/-! ### Claims C1-C4: type inference -/

/-- Claim C1: for a column of integral values, `infer_mysql_type` returns
SmallInt when the maximum value is below 127, Int when it is at least 127
and below 32767, and BigInt when it is at least 32767; an empty column is
treated as having maximum 0 (hence SmallInt). -/
theorem infer_integer_thresholds (m : TypeMapping) (vals : List Int)
    (name : PyStr) (M : Int)
    (hov : lookupType m name = none)
    (hmax : (vals = [] ∧ M = 0) ∨ (M ∈ vals ∧ ∀ x ∈ vals, x ≤ M)) :
    (M < 127 → infer_mysql_type m (.ints vals) name = .smallint) ∧
    (127 ≤ M ∧ M < 32767 → infer_mysql_type m (.ints vals) name = .integer) ∧
    (32767 ≤ M → infer_mysql_type m (.ints vals) name = .bigint) := by
  have hM : seriesMax vals = M := seriesMax_eq vals M hmax
  refine ⟨fun h1 => ?_, fun h2 => ?_, fun h3 => ?_⟩ <;>
    simp only [infer_mysql_type, hov, hM]
  · rw [if_pos h1]
  · rw [if_neg (by omega), if_pos h2.2]
  · rw [if_neg (by omega), if_neg (by omega)]

/-- Claim C1 witness: the boundary value 127 maps to Int. -/
theorem infer_integer_thresholds_instance :
    lookupType [] [99] = none ∧
    infer_mysql_type [] (.ints [127]) [99] = .integer :=
  ⟨by decide,
   (infer_integer_thresholds [] [127] [99] 127 (by decide)
      (Or.inr ⟨by decide, by decide⟩)).2.1 ⟨by decide, by decide⟩⟩

/-- Claim C2: when the column name has an entry in the override mapping,
`infer_mysql_type` returns the declared descriptor verbatim, for every
possible series of values (the values are never inspected). -/
theorem override_precedence (m : TypeMapping) (series : Series)
    (name : PyStr) (t : SqlType)
    (hov : lookupType m name = some t) :
    infer_mysql_type m series name = t := by
  simp only [infer_mysql_type, hov]

/-- Claim C2 witness: a declared TEXT override wins over a column whose
values are huge integers, which inference would have typed BIGINT. -/
theorem override_precedence_instance :
    lookupType [([99], SqlType.text)] [99] = some SqlType.text ∧
    infer_mysql_type [([99], SqlType.text)] (.ints [500000]) [99] = SqlType.text :=
  ⟨by decide, override_precedence [([99], SqlType.text)] (.ints [500000]) [99]
    SqlType.text (by decide)⟩

/-- Claim C3 counterexample.  First conjunct: a text column whose longest
value has 1 character yields VarChar(1), because the source truncates with
`int(max_length * 1.5)`; the claim's formula `round(1 x 1.5)` predicts
VarChar(2).  Second conjunct: a text column consisting of one missing cell
yields VarChar(4), because `astype(str)` renders the missing value as the
3-character string nan; the claim ignores missing values and would default
the length to 255, predicting VarChar(382). -/
theorem text_round_counterexample :
    infer_mysql_type [] (.strs [some [97]]) [99] = .varchar 1 ∧
    infer_mysql_type [] (.strs [none]) [99] = .varchar 4 ∧
    SqlType.varchar 1 ≠ SqlType.varchar 2 ∧
    SqlType.varchar 4 ≠ SqlType.varchar 382 := by
  refine ⟨by decide, by decide, by decide, by decide⟩

/-- Claim C3 (amended): for a text/mixed column, with L the maximum
string-rendered length over all cells (missing cells render as the
3-character string nan; L = 0, which covers the empty column, defaults to
255 and hence VarChar(382)): L > 5000 gives Text, 1000 < L <= 5000 gives
VarChar(5000), and otherwise VarChar(min(floor(L x 1.5), 1000)) with
truncation rather than rounding. -/
theorem infer_text_thresholds (m : TypeMapping) (vals : List (Option PyStr))
    (name : PyStr) (L : Nat)
    (hov : lookupType m name = none)
    (hL : (vals = [] ∧ L = 0) ∨
          (L ∈ (vals.map renderCell).map List.length ∧
           ∀ x ∈ (vals.map renderCell).map List.length, x ≤ L)) :
    (L = 0 → infer_mysql_type m (.strs vals) name = .varchar 382) ∧
    (0 < L ∧ L ≤ 1000 →
      infer_mysql_type m (.strs vals) name = .varchar (min (3 * L / 2) 1000)) ∧
    (1000 < L ∧ L ≤ 5000 → infer_mysql_type m (.strs vals) name = .varchar 5000) ∧
    (5000 < L → infer_mysql_type m (.strs vals) name = .text) := by
  have hM : maxOrZero ((vals.map renderCell).map List.length) = L := by
    refine maxOrZero_eq _ L ?_
    rcases hL with ⟨h1, h2⟩ | h
    · exact Or.inl ⟨by simp [h1], h2⟩
    · exact Or.inr h
  refine ⟨fun h1 => ?_, fun h2 => ?_, fun h3 => ?_, fun h4 => ?_⟩ <;>
    simp only [infer_mysql_type, hov, hM]
  · rw [if_pos h1]
    norm_num
  · rw [if_neg (show ¬ L = 0 by omega), if_neg (by omega), if_neg (by omega)]
  · rw [if_neg (show ¬ L = 0 by omega), if_neg (by omega), if_pos (by omega)]
  · rw [if_neg (show ¬ L = 0 by omega), if_pos (by omega)]

/-- Claim C3 witness: a column whose longest rendered value has 10
characters is typed VarChar(15). -/
theorem infer_text_thresholds_instance :
    lookupType [] [99] = none ∧
    infer_mysql_type [] (.strs [some [104, 105], some [97, 97, 97, 97, 97, 97, 97, 97, 97, 97]]) [99]
      = .varchar 15 := by
  refine ⟨by decide, ?_⟩
  have h := (infer_text_thresholds []
    [some [104, 105], some [97, 97, 97, 97, 97, 97, 97, 97, 97, 97]] [99] 10
    (by decide) (Or.inr ⟨by decide, by decide⟩)).2.1 ⟨by decide, by decide⟩
  simpa using h

set_option maxRecDepth 8000 in
/-- Claim C4 counterexample: a text column whose longest value has 1500
characters is typed VarChar(5000), so inference does return a VarChar
longer than 1000; the 1000 invariant claimed for the data model does not
hold of the code. -/
theorem varchar_cap_counterexample :
    infer_mysql_type [] (.strs [some (List.replicate 1500 97)]) [99]
      = .varchar 5000 ∧ ¬ (5000 ≤ 1000) :=
  ⟨by decide, by decide⟩

/-- Claim C4 (amended): for every column without an override entry, any
VarChar descriptor produced by `infer_mysql_type` has length at most 5000
(the cap forced by the code is 5000, not 1000); columns whose observed
values need a longer field become Text. -/
theorem varchar_length_bound (m : TypeMapping) (series : Series)
    (name : PyStr) (n : Nat)
    (hov : lookupType m name = none)
    (hvc : infer_mysql_type m series name = .varchar n) :
    n ≤ 5000 := by
  cases series with
  | ints vals =>
    simp only [infer_mysql_type, hov] at hvc
    split_ifs at hvc
  | floats =>
    simp only [infer_mysql_type, hov] at hvc
    exact SqlType.noConfusion hvc
  | bools =>
    simp only [infer_mysql_type, hov] at hvc
    exact SqlType.noConfusion hvc
  | datetimes =>
    simp only [infer_mysql_type, hov] at hvc
    exact SqlType.noConfusion hvc
  | strs vals =>
    simp only [infer_mysql_type, hov] at hvc
    generalize (if maxOrZero ((vals.map renderCell).map List.length) = 0 then 255
        else maxOrZero ((vals.map renderCell).map List.length)) = K at hvc
    split_ifs at hvc with h1 h2
    · have h5 := SqlType.varchar.inj hvc
      omega
    · have h5 := SqlType.varchar.inj hvc
      have h6 : min (3 * K / 2) 1000 ≤ 1000 := min_le_right _ _
      omega

/-- Claim C4 witness: a short text column produces VarChar(3), within the
5000 bound. -/
theorem varchar_length_bound_instance :
    lookupType [] [99] = none ∧
    infer_mysql_type [] (.strs [some [97, 97]]) [99] = .varchar 3 ∧
    3 ≤ 5000 :=
  ⟨by decide, by decide,
   varchar_length_bound [] (.strs [some [97, 97]]) [99] 3 (by decide) (by decide)⟩

/-! ### Helper lemmas about the name sanitizer -/

theorem dropWhile_eq_self_of_forall (p : Nat → Bool) (l : List Nat)
    (h : ∀ c ∈ l, p c = false) : l.dropWhile p = l := by
  cases l with
  | nil => rfl
  | cons a l =>
    rw [List.dropWhile_cons, h a (by simp)]
    simp

theorem map_eq_self_of_forall (f : Nat → Nat) (l : List Nat)
    (h : ∀ c ∈ l, f c = c) : l.map f = l := by
  induction l with
  | nil => rfl
  | cons a l ih =>
    rw [List.map_cons, h a (by simp), ih (fun c hc => h c (by simp [hc]))]

theorem pyStrip_eq_self (s : PyStr) (h : ∀ c ∈ s, pyIsSpace c = false) :
    pyStrip s = s := by
  unfold pyStrip
  rw [dropWhile_eq_self_of_forall _ _ h]
  rw [dropWhile_eq_self_of_forall _ _ (fun c hc => h c (List.mem_reverse.mp hc))]
  exact List.reverse_reverse s

theorem pyStrip_eq_nil_iff (s : PyStr) :
    pyStrip s = [] ↔ ∀ c ∈ s, pyIsSpace c = true := by
  unfold pyStrip
  constructor
  · intro h c hc
    rw [List.reverse_eq_nil_iff, List.dropWhile_eq_nil_iff] at h
    have h2 : ∀ x ∈ s.dropWhile pyIsSpace, pyIsSpace x = true := by
      intro x hx
      exact h x (List.mem_reverse.mpr hx)
    have hc2 : c ∈ s.takeWhile pyIsSpace ++ s.dropWhile pyIsSpace := by
      rw [List.takeWhile_append_dropWhile]
      exact hc
    rcases List.mem_append.mp hc2 with hc1 | hc1
    · exact List.mem_takeWhile_imp hc1
    · exact h2 c hc1
  · intro h
    rw [List.dropWhile_eq_nil_iff.mpr h]
    rfl

theorem subNonAlnum_ok (c : Nat) :
    pyIsAlnum (subNonAlnum c) = true ∨ subNonAlnum c = 95 := by
  unfold subNonAlnum
  split_ifs with h
  · simp only [Bool.or_eq_true, decide_eq_true_eq] at h
    exact h
  · right
    rfl

theorem mem_of_mem_dropWhile (p : Nat → Bool) (l : List Nat) (c : Nat)
    (h : c ∈ l.dropWhile p) : c ∈ l := by
  induction l with
  | nil => simpa using h
  | cons a l ih =>
    rw [List.dropWhile_cons] at h
    by_cases hp : p a = true
    · rw [if_pos hp] at h
      exact List.mem_cons_of_mem a (ih h)
    · rw [if_neg hp] at h
      exact h

theorem pyStrip_subset (s : PyStr) : ∀ c ∈ pyStrip s, c ∈ s := by
  intro c hc
  unfold pyStrip at hc
  rw [List.mem_reverse] at hc
  have h1 := mem_of_mem_dropWhile pyIsSpace _ c hc
  rw [List.mem_reverse] at h1
  exact mem_of_mem_dropWhile pyIsSpace s c h1

theorem flatMap_eq_self_of_forall (f : Nat → List Nat) (l : List Nat)
    (h : ∀ c ∈ l, f c = [c]) : l.flatMap f = l := by
  induction l with
  | nil => rfl
  | cons a l ih =>
    rw [List.flatMap_cons, h a (by simp), ih (fun c hc => h c (by simp [hc]))]
    rfl

theorem pyLowerChar_ne_nil (c : Nat) : pyLowerChar c ≠ [] := by
  unfold pyLowerChar
  split_ifs <;> simp

theorem ascii_lowerChar_good (c : Nat) (hc : c < 128)
    (h : pyIsAlnum c = true ∨ c = 95) :
    ∀ x ∈ pyLowerChar c, goodChar x = true := by
  intro x hx
  simp only [pyIsAlnum, decide_eq_true_eq] at h
  unfold pyLowerChar at hx
  split_ifs at hx with h1 h2 h3
  · simp only [List.mem_cons, List.not_mem_nil, or_false] at hx
    subst hx
    simp only [goodChar, decide_eq_true_eq]
    omega
  · exfalso
    omega
  · exfalso
    omega
  · simp only [List.mem_cons, List.not_mem_nil, or_false] at hx
    subst hx
    simp only [goodChar, decide_eq_true_eq]
    omega

theorem pyLowerChar_head_nondigit (c : Nat) (l2 : PyStr)
    (hd : pyIsDigit c = false) :
    headNotDigit ((pyLowerChar c ++ l2).take 64) = true := by
  simp only [pyIsDigit, decide_eq_false_iff_not] at hd
  unfold pyLowerChar
  split_ifs with h1 h2 h3
  · show (!pyIsDigit (c + 32)) = true
    have h4 : pyIsDigit (c + 32) = false := by
      simp only [pyIsDigit, decide_eq_false_iff_not]
      omega
    rw [h4]
    rfl
  · show (!pyIsDigit 233) = true
    decide
  · show (!pyIsDigit 105) = true
    decide
  · show (!pyIsDigit c) = true
    have h4 : pyIsDigit c = false := by
      simp only [pyIsDigit, decide_eq_false_iff_not]
      omega
    rw [h4]
    rfl

theorem take64_cons_ne_nil (x : Nat) (l : PyStr) : (x :: l).take 64 ≠ [] := by
  intro hnil
  have hlen := congrArg List.length hnil
  rw [List.length_take, List.length_cons] at hlen
  simp at hlen

theorem goodChar_notspace (c : Nat) (h : goodChar c = true) :
    pyIsSpace c = false := by
  simp only [goodChar, decide_eq_true_eq] at h
  simp only [pyIsSpace, decide_eq_false_iff_not]
  omega

theorem goodChar_subSpace (c : Nat) (h : goodChar c = true) : subSpace c = c := by
  simp only [goodChar, decide_eq_true_eq] at h
  unfold subSpace
  split_ifs with h2 <;> omega

theorem goodChar_subHyphen (c : Nat) (h : goodChar c = true) : subHyphen c = c := by
  simp only [goodChar, decide_eq_true_eq] at h
  unfold subHyphen
  split_ifs with h2 <;> omega

theorem goodChar_subNonAlnum (c : Nat) (h : goodChar c = true) :
    subNonAlnum c = c := by
  simp only [goodChar, decide_eq_true_eq] at h
  unfold subNonAlnum
  split_ifs with h2
  · rfl
  · simp only [Bool.or_eq_true, decide_eq_true_eq, pyIsAlnum, not_or] at h2
    omega

theorem goodChar_lowerChar_fix (c : Nat) (h : goodChar c = true) :
    pyLowerChar c = [c] := by
  simp only [goodChar, decide_eq_true_eq] at h
  unfold pyLowerChar
  split_ifs with h1 h2 h3
  · exfalso
    omega
  · exfalso
    omega
  · exfalso
    omega
  · rfl

theorem sanitizeCore_ascii (s : PyStr) (hascii : ∀ c ∈ s, c < 128) :
    ∀ x ∈ sanitizeCore s, x < 128 := by
  intro x hx
  unfold sanitizeCore at hx
  rcases List.mem_map.mp hx with ⟨y, hy, rfl⟩
  rcases List.mem_map.mp hy with ⟨z, hz, rfl⟩
  rcases List.mem_map.mp hz with ⟨w, hw, rfl⟩
  have hw128 : w < 128 := hascii w (pyStrip_subset s w hw)
  unfold subNonAlnum subHyphen subSpace
  split_ifs <;> omega

theorem sanitizeCore_chars (s : PyStr) :
    ∀ x ∈ sanitizeCore s, pyIsAlnum x = true ∨ x = 95 := by
  intro x hx
  unfold sanitizeCore at hx
  rcases List.mem_map.mp hx with ⟨y, _, rfl⟩
  exact subNonAlnum_ok y

theorem tableLit_chars : ∀ x ∈ tableLit, pyIsAlnum x = true ∨ x = 95 := by
  intro x hx
  simp only [tableLit, List.mem_cons, List.not_mem_nil, or_false] at hx
  rcases hx with rfl | rfl | rfl | rfl | rfl | rfl <;> decide

theorem clean_good (s t : PyStr) (h : clean_table_name s = some t) :
    headNotDigit t = true ∧ t.length ≤ 64 ∧ t ≠ [] ∧
    ((∀ c ∈ s, c < 128) → t.all goodChar = true) := by
  unfold clean_table_name at h
  cases hcore : sanitizeCore s with
  | nil =>
    rw [hcore] at h
    exact absurd h (by simp)
  | cons c rest =>
    rw [hcore] at h
    have hchars0 : ∀ x ∈ c :: rest, pyIsAlnum x = true ∨ x = 95 := by
      intro x hx
      exact sanitizeCore_chars s x (hcore.symm ▸ hx)
    have ht : t = (((if pyIsDigit c then tableLit ++ (c :: rest)
        else c :: rest)).flatMap pyLowerChar).take 64 := (Option.some.inj h).symm
    have hform : tableLit ++ (c :: rest)
        = 116 :: ([97, 98, 108, 101, 95] ++ (c :: rest)) := rfl
    refine ⟨?_, ?_, ?_, ?_⟩
    · rw [ht]
      by_cases hd : pyIsDigit c = true
      · rw [if_pos hd, hform, List.flatMap_cons]
        exact pyLowerChar_head_nondigit 116 _ (by decide)
      · rw [if_neg hd, List.flatMap_cons]
        exact pyLowerChar_head_nondigit c _ (by simpa using hd)
    · rw [ht, List.length_take]
      exact min_le_left _ _
    · rw [ht]
      by_cases hd : pyIsDigit c = true
      · rw [if_pos hd, hform, List.flatMap_cons,
          show pyLowerChar 116 = [116] from by decide, List.singleton_append]
        exact take64_cons_ne_nil _ _
      · rw [if_neg hd, List.flatMap_cons]
        obtain ⟨y, ys, hy⟩ := List.exists_cons_of_ne_nil (pyLowerChar_ne_nil c)
        rw [hy, List.cons_append]
        exact take64_cons_ne_nil _ _
    · intro hascii
      have hascii0 : ∀ x ∈ c :: rest, x < 128 := by
        intro x hx
        exact sanitizeCore_ascii s hascii x (hcore.symm ▸ hx)
      rw [ht, List.all_eq_true]
      intro x hx
      have hx2 : x ∈ (if pyIsDigit c then tableLit ++ (c :: rest)
          else c :: rest).flatMap pyLowerChar := List.take_subset _ _ hx
      rcases List.mem_flatMap.mp hx2 with ⟨y, hy, hxy⟩
      have hbase : (pyIsAlnum y = true ∨ y = 95) ∧ y < 128 := by
        split_ifs at hy with hd
        · rcases List.mem_append.mp hy with hy1 | hy1
          · refine ⟨tableLit_chars y hy1, ?_⟩
            simp only [tableLit, List.mem_cons, List.not_mem_nil, or_false] at hy1
            rcases hy1 with rfl | rfl | rfl | rfl | rfl | rfl <;> decide
          · exact ⟨hchars0 y hy1, hascii0 y hy1⟩
        · exact ⟨hchars0 y hy, hascii0 y hy⟩
      exact ascii_lowerChar_good y hbase.2 hbase.1 x hxy

theorem clean_fixes_good (t : PyStr) (hall : t.all goodChar = true)
    (hhead : headNotDigit t = true) (hlen : t.length ≤ 64) (hne : t ≠ []) :
    clean_table_name t = some t := by
  have hmem : ∀ x ∈ t, goodChar x = true := List.all_eq_true.mp hall
  have hcore : sanitizeCore t = t := by
    unfold sanitizeCore
    rw [pyStrip_eq_self t (fun c hc => goodChar_notspace c (hmem c hc))]
    rw [map_eq_self_of_forall _ _ (fun c hc => goodChar_subSpace c (hmem c hc))]
    rw [map_eq_self_of_forall _ _ (fun c hc => goodChar_subHyphen c (hmem c hc))]
    exact map_eq_self_of_forall _ _ (fun c hc => goodChar_subNonAlnum c (hmem c hc))
  obtain ⟨c, rest, rfl⟩ := List.exists_cons_of_ne_nil hne
  have hd : pyIsDigit c = false := by
    simpa [headNotDigit] using hhead
  unfold clean_table_name
  rw [hcore]
  show some ((((if pyIsDigit c then tableLit ++ (c :: rest)
      else c :: rest)).flatMap pyLowerChar).take 64) = some (c :: rest)
  rw [if_neg (by simp [hd])]
  rw [flatMap_eq_self_of_forall _ _
    (fun x hx => goodChar_lowerChar_fix x (hmem x hx))]
  rw [List.take_of_length_le hlen]

/-! ### Claims C5, C6, C10: table-name sanitization -/

/-- Claim C5 counterexample: the label cafe-with-acute (codepoints 99, 97,
102, 233) sanitizes to itself, because Python's Unicode-aware `isalnum`
keeps the small e with acute (233) and lowercasing fixes it; the result
therefore contains a character outside [a-z0-9_], refuting the claimed
character-set property. -/
theorem unicode_alnum_counterexample :
    clean_table_name [99, 97, 102, 233] = some [99, 97, 102, 233] ∧
    ([99, 97, 102, 233] : PyStr).all goodChar = false :=
  ⟨by decide, by decide⟩

/-- Claim C5 (amended): every table name produced by `clean_table_name`
does not begin with a digit and is at most 64 characters long, and when
the label is ASCII the name consists only of [a-z0-9_]; the character-set
guarantee does not extend to non-ASCII labels, whose Unicode alphanumerics
`c.isalnum()` keeps (only lowercased), as in the cafe counterexample. -/
theorem clean_table_name_shape (s t : PyStr) (h : clean_table_name s = some t) :
    headNotDigit t = true ∧ t.length ≤ 64 ∧
    ((∀ c ∈ s, c < 128) → t.all goodChar = true) := by
  obtain ⟨h1, h2, _, h4⟩ := clean_good s t h
  exact ⟨h1, h2, h4⟩

/-- Claim C5 witness: the ASCII sheet label My 1 (codepoints of M, y,
space, 1) sanitizes to my_1, which satisfies all three shape properties. -/
theorem clean_table_name_shape_instance :
    clean_table_name [77, 121, 32, 49] = some [109, 121, 95, 49] ∧
    headNotDigit [109, 121, 95, 49] = true ∧
    ([109, 121, 95, 49] : PyStr).length ≤ 64 ∧
    ([109, 121, 95, 49] : PyStr).all goodChar = true := by
  refine ⟨by decide, ?_⟩
  have h := clean_table_name_shape [77, 121, 32, 49] [109, 121, 95, 49] (by decide)
  exact ⟨h.1, h.2.1, h.2.2 (by decide)⟩

/-- Claim C6 counterexample: sanitizing the label capital I with dot above
(codepoint 304) yields i followed by the combining dot above (105, 775),
because Python lowercases it to two codepoints; sanitizing that output
again replaces the combining dot (not alphanumeric) with underscore,
yielding (105, 95) instead - so sanitization is not idempotent. -/
theorem idempotence_counterexample :
    clean_table_name [304] = some [105, 775] ∧
    clean_table_name [105, 775] = some [105, 95] ∧
    (clean_table_name [304]).bind clean_table_name ≠ clean_table_name [304] :=
  ⟨by decide, by decide, by decide⟩

/-- Claim C6 (amended): sanitization is idempotent on ASCII labels:
applying `clean_table_name` to its own output returns the output unchanged
(stated with `Option.bind`, so a label on which the source raises agrees
on both sides).  For labels with certain non-ASCII characters (capital I
with dot above, whose lowercase introduces a combining mark) idempotence
fails, as the counterexample shows. -/
theorem clean_table_name_idempotent (s : PyStr) (hascii : ∀ c ∈ s, c < 128) :
    (clean_table_name s).bind clean_table_name = clean_table_name s := by
  cases h : clean_table_name s with
  | none => rfl
  | some t =>
    obtain ⟨h1, h2, h3, h4⟩ := clean_good s t h
    show clean_table_name t = some t
    exact clean_fixes_good t (h4 hascii) h1 h2 h3

/-- Claim C6 witness: idempotence at the ASCII label Ab 7 (codepoints of
A, b, space, 7). -/
theorem clean_table_name_idempotent_instance :
    (∀ c ∈ ([65, 98, 32, 55] : PyStr), c < 128) ∧
    (clean_table_name [65, 98, 32, 55]).bind clean_table_name
      = clean_table_name [65, 98, 32, 55] :=
  ⟨by decide, clean_table_name_idempotent [65, 98, 32, 55] (by decide)⟩

/-- Claim C10: `clean_table_name` fails (the source raises `IndexError` at
`table_name[0]`) exactly on the labels that are empty or all whitespace;
every label with at least one non-whitespace character returns normally.
`pyIsSpace` is CPython's complete whitespace table, so this covers Unicode
whitespace such as the no-break space as well. -/
theorem clean_table_name_partiality (s : PyStr) :
    clean_table_name s = none ↔ ∀ c ∈ s, pyIsSpace c = true := by
  have h1 : sanitizeCore s = [] ↔ pyStrip s = [] := by
    unfold sanitizeCore
    simp [List.map_eq_nil_iff]
  have hmain : clean_table_name s = none ↔ sanitizeCore s = [] := by
    unfold clean_table_name
    cases hcore : sanitizeCore s with
    | nil => simp
    | cons c rest => simp
  rw [hmain, h1, pyStrip_eq_nil_iff]

/-! ### Helper lemma about the migration loop -/

theorem migrate_fold (m : TypeMapping) (sheets : List Sheet) :
    ∀ st : MigrationStats,
      (sheets.foldl (migrate_step m) st).successful
        = st.successful
          + sheets.countP (fun s => (migrate_sheet_to_table m s).success) ∧
      (sheets.foldl (migrate_step m) st).failed
        = st.failed
          + sheets.countP (fun s => !(migrate_sheet_to_table m s).success) ∧
      (sheets.foldl (migrate_step m) st).total_sheets = st.total_sheets ∧
      (sheets.foldl (migrate_step m) st).total_rows = st.total_rows := by
  induction sheets with
  | nil =>
    intro st
    simp
  | cons s rest ih =>
    intro st
    rw [List.foldl_cons]
    obtain ⟨ih1, ih2, ih3, ih4⟩ := ih (migrate_step m st s)
    rw [List.countP_cons, List.countP_cons]
    unfold migrate_step at *
    by_cases hs : (migrate_sheet_to_table m s).success = true
    · simp only [hs, if_pos] at *
      refine ⟨?_, ?_, ?_, ?_⟩ <;> simp [ih1, ih2, ih3, ih4] <;> omega
    · simp only [hs, if_neg, Bool.not_eq_true] at *
      refine ⟨?_, ?_, ?_, ?_⟩ <;>
        simp [hs, ih1, ih2, ih3, ih4] <;> omega

theorem countP_bool_split (p : Sheet → Bool) (l : List Sheet) :
    l.countP p + l.countP (fun s => !p s) = l.length := by
  induction l with
  | nil => simp
  | cons a l ih =>
    rw [List.countP_cons, List.countP_cons]
    by_cases h : p a = true <;> simp [h] <;> omega

/-! ### Claims C7-C9: per-sheet migration and the summary -/

/-- Claim C7: a sheet with zero rows (whose name sanitizes normally) is
deliberately skipped before the write step: the outcome is the dedicated
skip return site, its success flag is false, and no destination table is
written. -/
theorem empty_sheet_skipped (m : TypeMapping) (s : Sheet) (tn : PyStr)
    (hname : clean_table_name s.sheet_name = some tn) (hrows : s.rows = 0) :
    migrate_sheet_to_table m s = .skippedEmpty ∧
    (migrate_sheet_to_table m s).success = false ∧
    (migrate_sheet_to_table m s).written = none := by
  have h : migrate_sheet_to_table m s = .skippedEmpty := by
    unfold migrate_sheet_to_table
    rw [hname]
    simp [hrows]
  exact ⟨h, by rw [h]; rfl, by rw [h]; rfl⟩

/-- Claim C7 witness: a zero-row sheet named a is skipped. -/
theorem empty_sheet_skipped_instance :
    clean_table_name [97] = some [97] ∧
    migrate_sheet_to_table [] { sheet_name := [97], rows := 0, load_fails := false }
      = .skippedEmpty :=
  ⟨by decide,
   (empty_sheet_skipped [] { sheet_name := [97], rows := 0, load_fails := false }
      [97] (by decide) rfl).1⟩

/-- Claim C8: `migrate_all` processes every sheet regardless of failures:
the summary counts exactly the sheets whose migration succeeded and exactly
the sheets whose migration did not, and successful + failed = total_sheets
= the number of sheets. -/
theorem migrate_all_counts (m : TypeMapping) (sheets : List Sheet) :
    (migrate_all m sheets).successful
      = sheets.countP (fun s => (migrate_sheet_to_table m s).success) ∧
    (migrate_all m sheets).failed
      = sheets.countP (fun s => !(migrate_sheet_to_table m s).success) ∧
    (migrate_all m sheets).successful + (migrate_all m sheets).failed
      = (migrate_all m sheets).total_sheets ∧
    (migrate_all m sheets).total_sheets = sheets.length := by
  obtain ⟨h1, h2, h3, _⟩ := migrate_fold m sheets
    { total_sheets := sheets.length, successful := 0, failed := 0, total_rows := 0 }
  have hc := countP_bool_split (fun s => (migrate_sheet_to_table m s).success) sheets
  unfold migrate_all
  refine ⟨by simpa using h1, by simpa using h2, ?_, by simpa using h3⟩
  rw [h1, h2, h3]
  simpa using hc

/-- Claim C9 (code bug): `stats['total_rows']` is initialised to 0 and never
updated anywhere in `migrate_all`, so the summary's total row count is 0 for
every run; in particular a run with one successfully migrated 5-row sheet
reports successful = 1 but total_rows = 0 instead of 5. -/
theorem total_rows_never_accumulated :
    (∀ (m : TypeMapping) (sheets : List Sheet),
        (migrate_all m sheets).total_rows = 0) ∧
    (migrate_all [] [{ sheet_name := [97], rows := 5, load_fails := false }]).successful
      = 1 ∧
    (migrate_all [] [{ sheet_name := [97], rows := 5, load_fails := false }]).total_rows
      = 0 := by
  refine ⟨?_, by decide, by decide⟩
  intro m sheets
  obtain ⟨_, _, _, h4⟩ := migrate_fold m sheets
    { total_sheets := sheets.length, successful := 0, failed := 0, total_rows := 0 }
  unfold migrate_all
  simpa using h4
